import Mathlib

/-!
# Verification of the Cherry Blossom 10-Miler dashboard pipeline

Shallow embedding of the two programs of the repository:

* `src/scraper.py` — the paginated extraction engine (module-level scrape
  loop, `checked_text`, per-row extraction with skip-on-exception).
* `src/data-cleaning.py` — the normalization & enrichment pipeline
  (`time_to_seconds`, `clean_data`, `get_census_region`,
  `get_census_division`, `calculate_percentiles`).

Data frames are embedded as lists of records; a pandas missing value (NaN)
is embedded as `none` of an `Option`.  Numeric coercion
(`pd.to_numeric(errors=...)`, Python `int(...)`) is modelled on
integer-valued strings: ASCII digits with an optional sign and surrounding
whitespace, which is the shape of every numeric field this data set carries
(Python's underscore digit grouping and non-ASCII digits are not modelled).
Python `str.strip` is modelled on the ASCII whitespace characters and
`str.upper` on ASCII letters, matching the two-letter state codes and time
strings the pipeline manipulates.
-/

namespace CherryBlossom

/-! ## Python string primitives -/

/-- ASCII whitespace, the characters Python's `str.strip()` removes from
the fields this pipeline sees: space, tab, LF, VT, FF, CR. -/
def isPySpace (c : Char) : Bool :=
  c.toNat = 32 ∨ c.toNat = 9 ∨ c.toNat = 10 ∨ c.toNat = 11 ∨
    c.toNat = 12 ∨ c.toNat = 13

/-- Remove leading and trailing whitespace from a character list. -/
def stripList (l : List Char) : List Char :=
  ((l.dropWhile isPySpace).reverse.dropWhile isPySpace).reverse

/-- Python `str.strip()` (ASCII whitespace). -/
def pyStrip (s : String) : String := ⟨stripList s.data⟩

/-- Uppercase one ASCII character, as Python `str.upper` does on the
letter range `a`–`z`. -/
def upperChar (c : Char) : Char :=
  if 97 ≤ c.toNat ∧ c.toNat ≤ 122 then Char.ofNat (c.toNat - 32) else c

/-- Python `str.upper()` (ASCII letters). -/
def pyUpper (s : String) : String := ⟨s.data.map upperChar⟩

/-- Numeric value of a digit list, most significant first. -/
def digitsToNat (l : List Char) : Nat :=
  l.foldl (fun a c => a * 10 + (c.toNat - 48)) 0

/-- Python `int(s)` on a character list: strips surrounding whitespace,
allows one optional sign, then requires at least one ASCII digit; anything
else raises, embedded as `none`. -/
def pyIntL (l : List Char) : Option Int :=
  let t := stripList l
  let signAndDigits : Int × List Char :=
    match t with
    | '+' :: r => (1, r)
    | '-' :: r => (-1, r)
    | r => (1, r)
  match signAndDigits with
  | (sign, ds) =>
    if ds ≠ [] ∧ ds.all Char.isDigit then some (sign * digitsToNat ds) else none

/-- Python `int(s)` on the strings this pipeline meets. -/
def pyInt (s : String) : Option Int := pyIntL s.data

/-- Python `s.split(':')` on a character list: every colon is a separator,
adjacent separators give empty fields, and the empty input gives one empty
field. -/
def splitColon : List Char → List (List Char)
  | [] => [[]]
  | c :: r =>
    if c = ':' then [] :: splitColon r
    else
      match splitColon r with
      | h :: t => (c :: h) :: t
      | [] => [[c]]

/-! ## Time Codec — `time_to_seconds` (data-cleaning.py lines 34–51)

`pd.isna(time_str) or time_str == ''` returns NaN; otherwise the string is
stripped, split on `':'`; 3 parts are `H:MM:SS`, 2 parts `MM:SS`, and any
other part count or a part on which `int` raises yields NaN via the bare
`except`. -/

def time_to_seconds (t : Option String) : Option Int :=
  match t with
  | none => none
  | some str =>
    if str = "" then none
    else
      match splitColon (stripList str.data) with
      | [h, m, s] =>
        match pyIntL h, pyIntL m, pyIntL s with
        | some a, some b, some c => some (a * 3600 + b * 60 + c)
        | _, _, _ => none
      | [m, s] =>
        match pyIntL m, pyIntL s with
        | some b, some c => some (b * 60 + c)
        | _, _ => none
      | _ => none

/-! ## Field Parser — `checked_text` (scraper.py lines 54–57)

`if not x or x == ', ': return ''` — a missing value or the empty string is
falsy, the literal `", "` placeholder is normalized away. -/

def checked_text (x : Option String) : String :=
  match x with
  | none => ""
  | some s => if s = "" ∨ s = ", " then "" else s

/-! ## Data model

`RawRec` is one row of the raw CSV as `load_data` reads it: each cell a
string or NaN (`none`; pandas reads an empty CSV cell as NaN). -/

structure RawRec where
  name : Option String
  gender : Option String
  age : Option String
  race : Option String
  state : Option String
  country : Option String
  overallPlace : Option String
  genderPlace : Option String
  ageGroupPlace : Option String
  finishTime : Option String
  pace : Option String
deriving DecidableEq

/-- A row of the cleaned data frame: the typed columns `clean_data`
produces.  `finishMin`/`paceMin` carry the exact value of the division by
60 that the source performs. -/
structure CleanRec where
  name : Option String
  gender : Option String
  age : Option Int
  race : Option String
  state : Option String
  country : Option String
  isUS : Bool
  overallPlace : Option Int
  genderPlace : Option Int
  ageGroupPlace : Option Int
  finishSec : Option Int
  finishMin : Option Rat
  paceSec : Option Int
  paceMin : Option Rat
  ageGroup : Option String
  censusRegion : Option String
  censusDivision : Option String
  isLocal : Bool
deriving DecidableEq

/-- `series.str.strip()` / `.str.upper()`: NaN propagates. -/
def optStr (f : String → String) (o : Option String) : Option String :=
  o.map f

/-- `pd.to_numeric(s, errors='coerce')` on the integer-valued strings of
this data set: a failed parse becomes NaN, never an exception. -/
def toNumeric (o : Option String) : Option Int := o.bind pyInt

/-! ## Geographic Classifier (data-cleaning.py lines 132–197)

The nine census-division code lists of `clean_data`, then
`get_census_region` / `get_census_division`, which re-normalize their
argument (`str(state).upper().strip()`) and check the military codes
first. -/

def new_england : List String := ["CT", "ME", "MA", "NH", "RI", "VT"]
def middle_atlantic : List String := ["NJ", "NY", "PA"]
def east_north_central : List String := ["IL", "IN", "MI", "OH", "WI"]
def west_north_central : List String := ["IA", "KS", "MN", "MO", "NE", "ND", "SD"]
def south_atlantic : List String := ["DE", "FL", "GA", "MD", "NC", "SC", "VA", "DC", "WV"]
def east_south_central : List String := ["AL", "KY", "MS", "TN"]
def west_south_central : List String := ["AR", "LA", "OK", "TX"]
def mountain : List String := ["AZ", "CO", "ID", "MT", "NV", "NM", "UT", "WY"]
def pacific : List String := ["AK", "CA", "HI", "OR", "WA"]

/-- The military postal codes removed by `clean_data` (line 83) and mapped
to the `"U.S. Military"` sentinel by both classifiers. -/
def military_codes : List String := ["AA", "AE", "AP"]

def get_census_region (state : Option String) : Option String :=
  match state with
  | none => none
  | some s0 =>
    let s := pyStrip (pyUpper s0)
    if s ∈ military_codes then some "U.S. Military"
    else if s ∈ new_england ∨ s ∈ middle_atlantic then some "Northeast"
    else if s ∈ east_north_central ∨ s ∈ west_north_central then some "Midwest"
    else if s ∈ south_atlantic ∨ s ∈ east_south_central ∨ s ∈ west_south_central then
      some "South"
    else if s ∈ mountain ∨ s ∈ pacific then some "West"
    else some "Other"

def get_census_division (state : Option String) : Option String :=
  match state with
  | none => none
  | some s0 =>
    let s := pyStrip (pyUpper s0)
    if s ∈ military_codes then some "U.S. Military"
    else if s ∈ new_england then some "New England"
    else if s ∈ middle_atlantic then some "Middle Atlantic"
    else if s ∈ east_north_central then some "East North Central"
    else if s ∈ west_north_central then some "West North Central"
    else if s ∈ south_atlantic then some "South Atlantic"
    else if s ∈ east_south_central then some "East South Central"
    else if s ∈ west_south_central then some "West South Central"
    else if s ∈ mountain then some "Mountain"
    else if s ∈ pacific then some "Pacific"
    else some "Other"

/-! ## Age binning (data-cleaning.py lines 102–106)

`pd.cut(age, bins, labels)` with `right=True` (the default): the intervals
are `(bins[i], bins[i+1]]`, a value outside every interval gets NaN. -/

def age_bins : List Int := [0, 19, 24, 29, 34, 39, 44, 49, 54, 59, 64, 69, 74, 79, 100]
def age_labels : List String :=
  ["0-19", "20-24", "25-29", "30-34", "35-39", "40-44", "45-49",
   "50-54", "55-59", "60-64", "65-69", "70-74", "75-79", "80+"]

/-- `pd.cut` on one value: find the first interval `(lo, hi]` holding it. -/
def cutFind (a : Int) : List Int → List String → Option String
  | lo :: hi :: bs, lab :: labs =>
    if lo < a ∧ a ≤ hi then some lab else cutFind a (hi :: bs) labs
  | _, _ => none

/-- The `Age Group` column: `pd.cut(df_clean['Age'], bins, labels)`;
NaN ages stay NaN. -/
def ageGroupOf (age : Option Int) : Option String :=
  age.bind fun a => cutFind a age_bins age_labels

/-! ## Cleaning Pipeline — `clean_data` (data-cleaning.py lines 53–205)

The row-wise steps in source order.  `step1` covers steps 2–7 of the
source (normalization, `Is_US`, numeric coercion); the military filter
(line 84) runs between `step1` and `step2`; `step2` covers steps 8–11
(time conversion, age groups); then the two row filters of steps 12–13;
`step3` covers steps 14–15 (census columns, `Is_Local`). -/

def step1 (r : RawRec) : CleanRec where
  name := r.name
  gender := optStr (fun s => pyUpper (pyStrip s)) r.gender
  age := toNumeric r.age
  race := r.race
  state := optStr (fun s => pyUpper (pyStrip s))
    ((fun o => match o with
      | some "" => none
      | o => o) r.state)
  country := optStr (fun s => pyUpper (pyStrip s)) r.country
  isUS := (optStr (fun s => pyUpper (pyStrip s)) r.country) = some "USA"
  overallPlace := toNumeric r.overallPlace
  genderPlace := toNumeric r.genderPlace
  ageGroupPlace := toNumeric r.ageGroupPlace
  finishSec := time_to_seconds r.finishTime
  finishMin := none
  paceSec := time_to_seconds r.pace
  paceMin := none
  ageGroup := none
  censusRegion := none
  censusDivision := none
  isLocal := false

def step2 (r : CleanRec) : CleanRec :=
  { r with
    finishMin := r.finishSec.map (fun s => (s : Rat) / 60)
    paceMin := r.paceSec.map (fun s => (s : Rat) / 60)
    ageGroup := ageGroupOf r.age }

def step3 (r : CleanRec) : CleanRec :=
  { r with
    censusRegion := get_census_region r.state
    censusDivision := get_census_division r.state
    isLocal := r.state = some "DC" ∨ r.state = some "MD" ∨ r.state = some "VA" }

/-- `df_clean['State'].isin(military_codes)`: NaN is in no list. -/
def stateIsMilitary (r : CleanRec) : Bool :=
  match r.state with
  | none => false
  | some s => s ∈ military_codes

/-- Outlier filter, line 122–125: NaN compares false in pandas, but these
rows were already dropped by `dropna`. -/
def finishInRange (r : CleanRec) : Bool :=
  match r.finishSec with
  | none => false
  | some s => 2400 ≤ s ∧ s ≤ 10800

def clean_data (df : List RawRec) : List CleanRec :=
  ((((((df.map step1).filter
        (fun r => ! stateIsMilitary r)).map step2).filter
        (fun r => r.finishSec.isSome && r.paceSec.isSome)).filter
        finishInRange).map step3)

/-! ## Ranking Engine — `calculate_percentiles` (data-cleaning.py 207–220)

`series.rank(pct=True)` uses pandas defaults: ties get the average of the
positional ranks they occupy (`method='average'`), NaN keeps NaN
(`na_option='keep'`), and `pct` divides by the number of non-NaN values.
The average of the tied positions `lt+1, …, lt+eq` is `lt + (eq+1)/2`.
`groupby` drops rows whose group key is NaN. -/

/-- The values of a place column that participate in ranking. -/
def validVals (xs : List (Option Int)) : List Int := xs.filterMap id

/-- Percentile of value `v` within column `xs`:
average rank of `v` divided by the non-NaN count, times 100. -/
def rankPct (xs : List (Option Int)) (v : Int) : Rat :=
  let vals := validVals xs
  let lt := (vals.filter (fun w => w < v)).length
  let eq := (vals.filter (fun w => w = v)).length
  ((lt : Rat) + ((eq : Rat) + 1) / 2) / (vals.length : Rat) * 100

/-- The final data frame row: a `CleanRec` plus the three percentile
columns added by `calculate_percentiles`. -/
structure FinalRec where
  base : CleanRec
  overallPct : Option Rat
  genderPct : Option Rat
  ageGroupPct : Option Rat
deriving DecidableEq

/-- The `Gender` group of a row: `df.groupby('Gender')`. -/
def genderGroup (df : List CleanRec) (g : String) : List CleanRec :=
  df.filter (fun x => x.gender = some g)

/-- The `Gender × Age Group` group of a row:
`df.groupby(['Gender', 'Age Group'])`. -/
def genderAgeGroup (df : List CleanRec) (g a : String) : List CleanRec :=
  df.filter (fun x => x.gender = some g ∧ x.ageGroup = some a)

/-- The three percentile columns for one row of `df`. -/
def addPercentiles (df : List CleanRec) (r : CleanRec) : FinalRec where
  base := r
  overallPct := r.overallPlace.map (rankPct (df.map (·.overallPlace)))
  genderPct :=
    match r.gender with
    | none => none
    | some g =>
      r.genderPlace.map (rankPct ((genderGroup df g).map (·.genderPlace)))
  ageGroupPct :=
    match r.gender, r.ageGroup with
    | some g, some a =>
      r.ageGroupPlace.map (rankPct ((genderAgeGroup df g a).map (·.ageGroupPlace)))
    | _, _ => none

def calculate_percentiles (df : List CleanRec) : List FinalRec :=
  df.map (addPercentiles df)

/-! ## Pagination Controller — the scrape loop (scraper.py lines 59–131)

The environment abstracts the externally controlled page: what the browser
shows on each page visit.  One rendered row either carries the
disqualification marker in its markup (skipped, line 66), raises during
field access (caught and dropped, lines 100–102), or yields its field
strings (lines 73–84).  `nextFound` is whether the `[Next >>]` lookup
(line 111) succeeds within its bounded wait, `staleOk` whether the
staleness wait (line 119) does. -/

/-- The field strings of one successfully accessed row, after the
`'|'`/`'-'`/`rsplit` decomposition of lines 73–84. -/
structure RowData where
  name : String
  genderPart : String
  agePart : String
  race : String
  cityStateFrag : String
  country : String
  overallPlace : String
  genderPlace : String
  agePlace : String
  finishTime : String
  pace : String
deriving DecidableEq

/-- One rendered result row as the extraction loop sees it. -/
inductive Rendered where
  | disq : Rendered
  | fieldError : Rendered
  | ok : RowData → Rendered
deriving DecidableEq

/-- What the browser presents while the controller is on one page. -/
structure PageEnv where
  rows : List Rendered
  nextFound : Bool
  staleOk : Bool

/-- A scraped record (lines 86–98): every field through `checked_text`,
`State` as the last two characters of the city/state fragment
(`citystate_country[0][-2:]`). -/
def lastTwo (s : String) : String :=
  ⟨s.data.drop (s.data.length - 2)⟩

def extractRow (d : RowData) : RawRec where
  name := some (checked_text (some d.name))
  gender := some (checked_text (some d.genderPart))
  age := some (checked_text (some d.agePart))
  race := some (checked_text (some d.race))
  state := some (checked_text (some (lastTwo d.cityStateFrag)))
  country := some (checked_text (some d.country))
  overallPlace := some (checked_text (some d.overallPlace))
  genderPlace := some (checked_text (some d.genderPlace))
  ageGroupPlace := some (checked_text (some d.agePlace))
  finishTime := some (checked_text (some d.finishTime))
  pace := some (checked_text (some d.pace))

/-- The per-page extraction loop (lines 64–102): disqualified rows and
rows whose field access raises are skipped, the rest are appended in
order. -/
def extractPage (rows : List Rendered) : List RawRec :=
  rows.filterMap fun r =>
    match r with
    | .disq => none
    | .fieldError => none
    | .ok d => some (extractRow d)

/-- How one run of the scraper ends.  `crashed`: an exception escaped the
loop (the rows-presence wait of line 61 is outside every `try`), so
execution never reaches `driver.quit()` (line 131) or the final
`to_csv` (line 134).  `finished`: the loop ended by `break` or by the
page bound, and the trailing lines run. -/
inductive RunEnd where
  | crashed : List RawRec → RunEnd
  | finished : List RawRec → RunEnd
deriving DecidableEq

/-- One iteration per recursion step; `fuel` bounds the recursion and is
kept at least `max_pages` so the `page ≤ max_pages` test, not the fuel,
decides termination. -/
def scrapeLoop (env : Nat → PageEnv) (maxPages : Nat) :
    Nat → Nat → List RawRec → RunEnd
  | 0, _, acc => .finished acc
  | fuel + 1, page, acc =>
    if page > maxPages then .finished acc
    else
      let pe := env page
      -- line 61: wait.until(presence of result rows); a timeout
      -- (no rows appear) raises out of the loop.
      if pe.rows = [] then .crashed acc
      else
        let acc' := acc ++ extractPage pe.rows
        -- lines 110–129: locate [Next >>]; absence breaks the loop;
        -- after clicking, a staleness timeout also breaks the loop.
        if pe.nextFound then
          if pe.staleOk then scrapeLoop env maxPages fuel (page + 1) acc'
          else .finished acc'
        else .finished acc'

/-- Observable outcome of the whole run: whether `driver.quit()` ran and
what the final `to_csv` persisted (`none` when the run died before it). -/
structure RunOutcome where
  driverQuit : Bool
  savedRows : Option (List RawRec)
deriving DecidableEq

def scrapeRun (env : Nat → PageEnv) (maxPages : Nat) : RunOutcome :=
  match scrapeLoop env maxPages maxPages 1 [] with
  | .crashed _ => { driverQuit := false, savedRows := none }
  | .finished acc => { driverQuit := true, savedRows := some acc }

/-! ## Concrete instances used by the claim theorems -/

/-- The 50-state/DC codes: the union of the nine division lists. -/
def all_state_codes : List String :=
  new_england ++ middle_atlantic ++ east_north_central ++ west_north_central ++
    south_atlantic ++ east_south_central ++ west_south_central ++ mountain ++ pacific

/-- The four census region names. -/
def region_names : List String := ["Northeast", "Midwest", "South", "West"]

/-- The nine census division names. -/
def division_names : List String :=
  ["New England", "Middle Atlantic", "East North Central", "West North Central",
   "South Atlantic", "East South Central", "West South Central", "Mountain", "Pacific"]

/-- A raw record that passes every admission rule except possibly the
finish-time one: the boundary probe for the `[2400, 10800]` filter. -/
def boundaryRow (t : String) : RawRec where
  name := some "Runner"
  gender := some "F"
  age := some "34"
  race := some "10 Mile"
  state := some "VA"
  country := some "USA"
  overallPlace := some "10"
  genderPlace := some "5"
  ageGroupPlace := some "2"
  finishTime := some t
  pace := some "7:33"

/-- One well-formed rendered row for the scraper environments. -/
def sampleRowData : RowData where
  name := "Runner"
  genderPart := "F"
  agePart := "34"
  race := "10 Mile"
  cityStateFrag := "Arlington, VA"
  country := "USA"
  overallPlace := "10"
  genderPlace := "5"
  agePlace := "2"
  finishTime := "1:15:30"
  pace := "7:33"

/-- An environment whose first page renders one row and navigates
normally, and whose second page never shows a row: the rows-presence wait
times out there. -/
def envCrash : Nat → PageEnv := fun p =>
  if p = 1 then { rows := [Rendered.ok sampleRowData], nextFound := true, staleOk := true }
  else { rows := [], nextFound := false, staleOk := false }

/-- An environment where every page renders one row and the next-page
control is never found: the run ends normally on its first page. -/
def envGood : Nat → PageEnv := fun _ =>
  { rows := [Rendered.ok sampleRowData], nextFound := false, staleOk := false }

/-- A cleaned record for the ranking witness: the single member of its
gender group. -/
def soloRec : CleanRec where
  name := some "Runner"
  gender := some "F"
  age := some 34
  race := some "10 Mile"
  state := some "VA"
  country := some "USA"
  isUS := true
  overallPlace := some 1
  genderPlace := some 1
  ageGroupPlace := some 1
  finishSec := some 4530
  finishMin := some (4530 / 60 : Rat)
  paceSec := some 453
  paceMin := some (453 / 60 : Rat)
  ageGroup := some "30-34"
  censusRegion := some "South"
  censusDivision := some "South Atlantic"
  isLocal := true

/-! ## Normalization lemmas

`clean_data` stores `State` as `upper(strip(x))` (line 72) while the two
classifiers re-normalize their argument as `strip(upper(s))` (lines 152,
172); on an already-normalized string the second pass is the identity,
which is what lets the military filter reach the classifiers. -/

theorem upperChar_idem (c : Char) : upperChar (upperChar c) = upperChar c := by
  by_cases h : 97 ≤ c.toNat ∧ c.toNat ≤ 122
  · unfold upperChar
    rw [if_pos h]
    obtain ⟨h1, h2⟩ := h
    generalize hg : c.toNat = n at h1 h2 ⊢
    interval_cases n <;> decide
  · unfold upperChar
    rw [if_neg h, if_neg h]

theorem isPySpace_upperChar (c : Char) : isPySpace (upperChar c) = isPySpace c := by
  by_cases h : 97 ≤ c.toNat ∧ c.toNat ≤ 122
  · unfold upperChar isPySpace
    rw [if_pos h]
    obtain ⟨h1, h2⟩ := h
    generalize hg : c.toNat = n at h1 h2 ⊢
    interval_cases n <;> decide
  · unfold upperChar
    rw [if_neg h]

theorem dropWhile_map_upper (l : List Char) :
    (l.map upperChar).dropWhile isPySpace = (l.dropWhile isPySpace).map upperChar := by
  induction l with
  | nil => rfl
  | cons a t ih =>
    simp only [List.map_cons, List.dropWhile_cons, isPySpace_upperChar]
    by_cases h : isPySpace a
    · rw [if_pos h, if_pos h, ih]
    · rw [if_neg h, if_neg h, List.map_cons]

theorem stripList_map_upper (l : List Char) :
    stripList (l.map upperChar) = (stripList l).map upperChar := by
  unfold stripList
  rw [dropWhile_map_upper, ← List.map_reverse, dropWhile_map_upper, ← List.map_reverse]

theorem map_upperChar_idem (l : List Char) :
    (l.map upperChar).map upperChar = l.map upperChar := by
  rw [List.map_map]
  exact List.map_congr_left (fun a _ => upperChar_idem a)

theorem dropWhile_eq_self_of_starts {p : Char → Bool} {A B : List Char}
    (hA : List.dropWhile p A = A) (hAB : B <+: A) : List.dropWhile p B = B := by
  cases B with
  | nil => rfl
  | cons b t =>
    obtain ⟨s, hs⟩ := hAB
    have hb : p b = false := by
      rw [← hs, List.cons_append, List.dropWhile_cons] at hA
      by_cases hpb : p b
      · rw [if_pos hpb] at hA
        have hlen := congrArg List.length hA
        have hle : (List.dropWhile p (t ++ s)).length ≤ (t ++ s).length :=
          (List.dropWhile_suffix p).sublist.length_le
        simp only [List.length_cons, List.length_append] at hlen hle
        omega
      · simpa using hpb
    rw [List.dropWhile_cons, hb]
    simp

theorem stripList_idem (l : List Char) : stripList (stripList l) = stripList l := by
  have hdA : List.dropWhile isPySpace (List.dropWhile isPySpace l) = List.dropWhile isPySpace l :=
    List.dropWhile_idempotent _ _
  have hpre : stripList l <+: List.dropWhile isPySpace l := by
    rw [← List.reverse_suffix]
    unfold stripList
    rw [List.reverse_reverse]
    exact List.dropWhile_suffix _
  have hdB : List.dropWhile isPySpace (stripList l) = stripList l :=
    dropWhile_eq_self_of_starts hdA hpre
  conv_lhs => rw [stripList, hdB]
  unfold stripList
  rw [List.reverse_reverse, List.dropWhile_idempotent]

theorem pyNorm_idem (s : String) :
    pyStrip (pyUpper (pyUpper (pyStrip s))) = pyUpper (pyStrip s) := by
  unfold pyStrip pyUpper
  congr 1
  show stripList (((stripList s.data).map upperChar).map upperChar)
      = (stripList s.data).map upperChar
  rw [map_upperChar_idem, stripList_map_upper, stripList_idem]

/-! ## Claim theorems -/

/-- C8: for every input, `checked_text` returns the empty string when the
input is missing, empty, or equal to the literal `", "`, and returns the
input unchanged in every other case. -/
theorem checked_text_spec :
    checked_text none = "" ∧
    checked_text (some "") = "" ∧
    checked_text (some ", ") = "" ∧
    ∀ s : String, s ≠ "" → s ≠ ", " → checked_text (some s) = s := by
  refine ⟨rfl, by decide, by decide, ?_⟩
  intro s h1 h2
  simp only [checked_text]
  rw [if_neg]
  simp [h1, h2]

/-- C8 witness: `checked_text` passes an ordinary string through. -/
theorem checked_text_spec_witness : checked_text (some "Arlington") = "Arlington" :=
  checked_text_spec.2.2.2 "Arlington" (by decide) (by decide)

/-- C2: `time_to_seconds` maps a missing or empty input to a missing
result; after trimming, a 3-part colon split of integers gives
`h*3600 + m*60 + s`, a 2-part split gives `m*60 + s`, any other part
count or a non-integer part gives a missing result (the function is total,
so it never raises); `"1:02:03"` ↦ 3723, `"45:10"` ↦ 2710, `"abc"` ↦
missing. -/
theorem time_to_seconds_spec :
    time_to_seconds none = none ∧
    time_to_seconds (some "") = none ∧
    (∀ s h m sec a b c, s ≠ "" →
      splitColon (stripList s.data) = [h, m, sec] →
      pyIntL h = some a → pyIntL m = some b → pyIntL sec = some c →
      time_to_seconds (some s) = some (a * 3600 + b * 60 + c)) ∧
    (∀ s m sec b c, s ≠ "" →
      splitColon (stripList s.data) = [m, sec] →
      pyIntL m = some b → pyIntL sec = some c →
      time_to_seconds (some s) = some (b * 60 + c)) ∧
    (∀ s, s ≠ "" →
      (splitColon (stripList s.data)).length ≠ 3 →
      (splitColon (stripList s.data)).length ≠ 2 →
      time_to_seconds (some s) = none) ∧
    (∀ s h m sec, s ≠ "" →
      splitColon (stripList s.data) = [h, m, sec] →
      pyIntL h = none ∨ pyIntL m = none ∨ pyIntL sec = none →
      time_to_seconds (some s) = none) ∧
    (∀ s m sec, s ≠ "" →
      splitColon (stripList s.data) = [m, sec] →
      pyIntL m = none ∨ pyIntL sec = none →
      time_to_seconds (some s) = none) ∧
    time_to_seconds (some "1:02:03") = some 3723 ∧
    time_to_seconds (some "45:10") = some 2710 ∧
    time_to_seconds (some "abc") = none := by
  refine ⟨rfl, by decide, ?_, ?_, ?_, ?_, ?_, by decide, by decide, by decide⟩
  · intro s h m sec a b c hs hsplit ha hb hc
    simp only [time_to_seconds]
    rw [if_neg hs, hsplit]
    simp [ha, hb, hc]
  · intro s m sec b c hs hsplit hb hc
    simp only [time_to_seconds]
    rw [if_neg hs, hsplit]
    simp [hb, hc]
  · intro s hs h3 h2
    simp only [time_to_seconds]
    rcases hp : splitColon (stripList s.data) with _ | ⟨x, _ | ⟨y, _ | ⟨z, _ | ⟨w, t⟩⟩⟩⟩
    · rw [if_neg hs]
    · rw [if_neg hs]
    · rw [hp] at h2
      simp at h2
    · rw [hp] at h3
      simp at h3
    · rw [if_neg hs]
  · intro s h m sec hs hsplit hnone
    simp only [time_to_seconds]
    rw [if_neg hs, hsplit]
    rcases hh : pyIntL h with _ | a <;> rcases hm : pyIntL m with _ | b <;>
      rcases hsec : pyIntL sec with _ | c <;>
      simp_all
  · intro s m sec hs hsplit hnone
    simp only [time_to_seconds]
    rw [if_neg hs, hsplit]
    rcases hm : pyIntL m with _ | b <;> rcases hsec : pyIntL sec with _ | c <;>
      simp_all

/-- C2 witness: the 3-part clause of the contract evaluated at
`"1:02:03"`. -/
theorem time_to_seconds_spec_witness :
    time_to_seconds (some "1:02:03") = some (1 * 3600 + 2 * 60 + 3) :=
  time_to_seconds_spec.2.2.1 "1:02:03" ['1'] ['0', '2'] ['0', '3'] 1 2 3
    (by decide) (by decide) (by decide) (by decide) (by decide)

/-- C3 counterexample: Age = 0 lies inside `[0, 100]` but receives no
label — `pd.cut`'s first interval is the left-open `(0, 19]`, so the
binning maps 0 to a missing group, contradicting the claim that every age
inside `[0, 100]` receives one of the 14 labels. -/
theorem ageGroup_zero_cex :
    (0 : Int) ∈ Finset.Icc (0 : Int) 100 ∧ ageGroupOf (some 0) = none := by
  decide

/-- C3 (amended): every age inside `(0, 100]` (that is, `[1, 100]`)
receives one of the 14 labels — Age 19 gets `"0-19"`, 20 gets `"20-24"`,
100 gets `"80+"` — while Age 0, any age outside `[0, 100]`, and a missing
age map to a missing group. -/
theorem ageGroup_amended :
    (∀ a : Int, 1 ≤ a → a ≤ 100 →
      ∃ lab ∈ age_labels, ageGroupOf (some a) = some lab) ∧
    ageGroupOf (some 19) = some "0-19" ∧
    ageGroupOf (some 20) = some "20-24" ∧
    ageGroupOf (some 100) = some "80+" ∧
    ageGroupOf (some 0) = none ∧
    (∀ a : Int, a < 0 ∨ 100 < a → ageGroupOf (some a) = none) ∧
    ageGroupOf none = none ∧
    ageGroupOf (some 150) = none := by
  refine ⟨?_, by decide, by decide, by decide, by decide, ?_, rfl, by decide⟩
  · intro a h1 h2
    interval_cases a <;> decide
  · intro a h
    have hcut : cutFind a age_bins age_labels = none := by
      simp only [age_bins, age_labels, cutFind]
      rcases h with h | h
      · repeat rw [if_neg (by omega)]
      · repeat rw [if_neg (by omega)]
    simp [ageGroupOf, hcut]

/-- C3 witness: the amended range clause evaluated at age 35. -/
theorem ageGroup_amended_witness :
    ∃ lab ∈ age_labels, ageGroupOf (some 35) = some lab :=
  ageGroup_amended.1 35 (by decide) (by decide)

/-- C6: the Geographic Classifier maps `"VA"` to Region `"South"` and
Division `"South Atlantic"`; each military code to the `"U.S. Military"`
sentinel; each 50-state/DC code to one of the 4 region names and one of
the 9 division names; any other non-missing code to `"Other"`; and a
missing State to a missing Region/Division. -/
theorem census_classifier_spec :
    get_census_region (some "VA") = some "South" ∧
    get_census_division (some "VA") = some "South Atlantic" ∧
    (∀ m ∈ military_codes,
      get_census_region (some m) = some "U.S. Military" ∧
      get_census_division (some m) = some "U.S. Military") ∧
    get_census_region (some "ZZ") = some "Other" ∧
    get_census_division (some "ZZ") = some "Other" ∧
    get_census_region none = none ∧
    get_census_division none = none ∧
    (∀ s ∈ all_state_codes,
      (∃ rg ∈ region_names, get_census_region (some s) = some rg) ∧
      (∃ dv ∈ division_names, get_census_division (some s) = some dv)) ∧
    (∀ s : String, pyStrip (pyUpper s) ∉ military_codes →
      pyStrip (pyUpper s) ∉ all_state_codes →
      get_census_region (some s) = some "Other" ∧
      get_census_division (some s) = some "Other") := by
  refine ⟨by decide, by decide, by decide, by decide, by decide, rfl, rfl,
    by decide, ?_⟩
  intro s h1 h2
  simp only [all_state_codes, List.mem_append, not_or] at h2
  obtain ⟨⟨⟨⟨⟨⟨⟨⟨hne, hma⟩, henc⟩, hwnc⟩, hsa⟩, hesc⟩, hwsc⟩, hmt⟩, hpc⟩ := h2
  constructor
  · simp only [get_census_region]
    rw [if_neg h1, if_neg (by tauto), if_neg (by tauto), if_neg (by tauto),
      if_neg (by tauto)]
  · simp only [get_census_division]
    rw [if_neg h1, if_neg hne, if_neg hma, if_neg henc, if_neg hwnc,
      if_neg hsa, if_neg hesc, if_neg hwsc, if_neg hmt, if_neg hpc]

/-- C6 witness: the military clause at `"AE"` and the sentinel clause at
`"ZZ"`. -/
theorem census_classifier_spec_witness :
    (get_census_region (some "AE") = some "U.S. Military" ∧
      get_census_division (some "AE") = some "U.S. Military") ∧
    (get_census_region (some "ZZ") = some "Other" ∧
      get_census_division (some "ZZ") = some "Other") :=
  ⟨census_classifier_spec.2.2.1 "AE" (by decide),
   census_classifier_spec.2.2.2.2.2.2.2.2 "ZZ" (by decide) (by decide)⟩

/-- Decomposition of membership in `clean_data`'s output: every final
record arises from a raw record via `step1`/`step2`/`step3` and survived
the military filter, the `dropna`, and the outlier filter. -/
theorem clean_data_shape {df : List RawRec} {r : CleanRec} (h : r ∈ clean_data df) :
    ∃ raw ∈ df,
      r = step3 (step2 (step1 raw)) ∧
      stateIsMilitary (step1 raw) = false ∧
      (step2 (step1 raw)).finishSec.isSome ∧
      (step2 (step1 raw)).paceSec.isSome ∧
      finishInRange (step2 (step1 raw)) := by
  unfold clean_data at h
  obtain ⟨c, hc, rfl⟩ := List.mem_map.mp h
  obtain ⟨hc2, hrange⟩ := List.mem_filter.mp hc
  obtain ⟨hc3, hdrop⟩ := List.mem_filter.mp hc2
  obtain ⟨b, hb, rfl⟩ := List.mem_map.mp hc3
  obtain ⟨hb2, hmil⟩ := List.mem_filter.mp hb
  obtain ⟨raw, hraw, rfl⟩ := List.mem_map.mp hb2
  rw [Bool.and_eq_true] at hdrop
  obtain ⟨hfin, hpace⟩ := hdrop
  refine ⟨raw, hraw, rfl, ?_, hfin, hpace, hrange⟩
  simpa using hmil

/-- C5: no record of the cleaned dataset carries a military postal code as
its State, whatever the row's Country or `Is_US` flag — the filter runs on
all rows. -/
theorem military_filter_spec :
    ∀ (df : List RawRec) (r : CleanRec), r ∈ clean_data df →
      r.state ≠ some "AA" ∧ r.state ≠ some "AE" ∧ r.state ≠ some "AP" := by
  intro df r h
  obtain ⟨raw, -, rfl, hmil, -, -, -⟩ := clean_data_shape h
  have hstate : (step3 (step2 (step1 raw))).state = (step1 raw).state := rfl
  rw [hstate]
  unfold stateIsMilitary at hmil
  rcases hs : (step1 raw).state with _ | s
  · simp
  · rw [hs] at hmil
    simp only [military_codes] at hmil
    simp at hmil
    simp_all

/-- C5 witness: the filter conclusion at a concretely cleaned record. -/
theorem military_filter_spec_witness :
    (step3 (step2 (step1 (boundaryRow "40:00")))).state ≠ some "AA" ∧
    (step3 (step2 (step1 (boundaryRow "40:00")))).state ≠ some "AE" ∧
    (step3 (step2 (step1 (boundaryRow "40:00")))).state ≠ some "AP" :=
  military_filter_spec [boundaryRow "40:00"] _ (List.mem_singleton_self _)

/-- C1: every record of the cleaned dataset has a non-missing
`Finish Time (seconds)` inside `[2400, 10800]` and a non-missing
`Pace (sec/mile)`; at the boundaries, a finish time of 2399 seconds is
dropped, 2400 retained, 10800 retained, 10801 dropped. -/
theorem admission_spec :
    (∀ (df : List RawRec) (r : CleanRec), r ∈ clean_data df →
      (∃ s, r.finishSec = some s ∧ 2400 ≤ s ∧ s ≤ 10800) ∧ r.paceSec ≠ none) ∧
    clean_data [boundaryRow "39:59"] = [] ∧
    (clean_data [boundaryRow "40:00"]).map (fun r => r.finishSec) = [some 2400] ∧
    (clean_data [boundaryRow "3:00:00"]).map (fun r => r.finishSec) = [some 10800] ∧
    clean_data [boundaryRow "3:00:01"] = [] := by
  refine ⟨?_, by decide, by decide, by decide, by decide⟩
  intro df r h
  obtain ⟨raw, -, rfl, -, hfin, hpace, hrange⟩ := clean_data_shape h
  have hf : (step3 (step2 (step1 raw))).finishSec = (step2 (step1 raw)).finishSec := rfl
  have hp : (step3 (step2 (step1 raw))).paceSec = (step2 (step1 raw)).paceSec := rfl
  rw [hf, hp]
  unfold finishInRange at hrange
  constructor
  · rcases hfs : (step2 (step1 raw)).finishSec with _ | v
    · rw [hfs] at hfin
      simp at hfin
    · rw [hfs] at hrange
      simp at hrange
      exact ⟨v, rfl, hrange.1, hrange.2⟩
  · rcases hps : (step2 (step1 raw)).paceSec with _ | p
    · rw [hps] at hpace
      simp at hpace
    · simp

/-- C1 witness: the general admission clause at the retained boundary
record with finish time `"40:00"`. -/
theorem admission_spec_witness :
    (∃ s, (step3 (step2 (step1 (boundaryRow "40:00")))).finishSec = some s ∧
      2400 ≤ s ∧ s ≤ 10800) ∧
    (step3 (step2 (step1 (boundaryRow "40:00")))).paceSec ≠ none :=
  admission_spec.1 [boundaryRow "40:00"] _ (List.mem_singleton_self _)

/-- A state that fails the military check classifies to one of the four
region names or `"Other"` — never missing, never the military sentinel. -/
theorem get_census_region_not_military (s : String)
    (h : pyStrip (pyUpper s) ∉ military_codes) :
    ∃ n ∈ region_names ++ ["Other"], get_census_region (some s) = some n := by
  simp only [get_census_region]
  rw [if_neg h]
  split_ifs <;> simp [region_names]

/-- Division analogue of `get_census_region_not_military`. -/
theorem get_census_division_not_military (s : String)
    (h : pyStrip (pyUpper s) ∉ military_codes) :
    ∃ n ∈ division_names ++ ["Other"], get_census_division (some s) = some n := by
  simp only [get_census_division]
  rw [if_neg h]
  split_ifs <;> simp [division_names]

/-- C10: the cleaned dataset never shows `"U.S. Military"` in
`Census Region` or `Census Division`: the military filter runs before the
classifiers, so their military branch is unreachable, and the only
outcomes are a real region/division name, `"Other"`, or missing. -/
theorem no_military_in_output :
    ∀ (df : List RawRec) (r : CleanRec), r ∈ clean_data df →
      r.censusRegion ≠ some "U.S. Military" ∧
      r.censusDivision ≠ some "U.S. Military" ∧
      (r.censusRegion = none ∨
        ∃ n ∈ region_names ++ ["Other"], r.censusRegion = some n) ∧
      (r.censusDivision = none ∨
        ∃ n ∈ division_names ++ ["Other"], r.censusDivision = some n) := by
  intro df r h
  obtain ⟨raw, -, rfl, hmil, -, -, -⟩ := clean_data_shape h
  have hreg : (step3 (step2 (step1 raw))).censusRegion
      = get_census_region (step1 raw).state := rfl
  have hdiv : (step3 (step2 (step1 raw))).censusDivision
      = get_census_division (step1 raw).state := rfl
  rw [hreg, hdiv]
  rcases hstate_eq : (step1 raw).state with _ | s
  · refine ⟨by simp [get_census_region], by simp [get_census_division], ?_, ?_⟩
    · left
      simp [get_census_region]
    · left
      simp [get_census_division]
  · have hs_form : ∃ x, s = pyUpper (pyStrip x) := by
      revert hstate_eq
      simp only [step1, optStr]
      rcases raw.state with _ | y
      · simp
      · by_cases hy : y = ""
        · simp [hy]
        · simp [hy]
          intro he
          exact ⟨y, he.symm⟩
    obtain ⟨x, rfl⟩ := hs_form
    have hmil0 : pyUpper (pyStrip x) ∉ military_codes := by
      unfold stateIsMilitary at hmil
      rw [hstate_eq] at hmil
      simpa using hmil
    have hmil1 : pyStrip (pyUpper (pyUpper (pyStrip x))) ∉ military_codes := by
      rw [pyNorm_idem]
      exact hmil0
    obtain ⟨nr, hnr, her⟩ := get_census_region_not_military _ hmil1
    obtain ⟨nd, hnd, hed⟩ := get_census_division_not_military _ hmil1
    have hnr' : nr ≠ "U.S. Military" := by
      rintro rfl
      revert hnr
      decide
    have hnd' : nd ≠ "U.S. Military" := by
      rintro rfl
      revert hnd
      decide
    exact ⟨by rw [her]; simpa using hnr', by rw [hed]; simpa using hnd',
      Or.inr ⟨nr, hnr, her⟩, Or.inr ⟨nd, hnd, hed⟩⟩

/-- C10 witness: the conclusion at a concretely cleaned record. -/
theorem no_military_in_output_witness :
    (step3 (step2 (step1 (boundaryRow "40:00")))).censusRegion ≠ some "U.S. Military" ∧
    (step3 (step2 (step1 (boundaryRow "40:00")))).censusDivision ≠ some "U.S. Military" ∧
    ((step3 (step2 (step1 (boundaryRow "40:00")))).censusRegion = none ∨
      ∃ n ∈ region_names ++ ["Other"],
        (step3 (step2 (step1 (boundaryRow "40:00")))).censusRegion = some n) ∧
    ((step3 (step2 (step1 (boundaryRow "40:00")))).censusDivision = none ∨
      ∃ n ∈ division_names ++ ["Other"],
        (step3 (step2 (step1 (boundaryRow "40:00")))).censusDivision = some n) :=
  no_military_in_output [boundaryRow "40:00"] _ (List.mem_singleton_self _)

/-- `rankPct` of the unique value of a one-element column is 100. -/
theorem rankPct_single (v : Int) : rankPct [some v] v = 100 := by
  simp [rankPct, validVals]

/-- A value that occurs in the column has positive percentile. -/
theorem rankPct_pos {xs : List (Option Int)} {v : Int} (h : some v ∈ xs) :
    0 < rankPct xs v := by
  have hv : v ∈ validVals xs := by
    simp only [validVals, List.mem_filterMap]
    exact ⟨some v, h, rfl⟩
  have h1 : 0 < (validVals xs).length :=
    List.length_pos.mpr (fun hnil => by rw [hnil] at hv; simp at hv)
  unfold rankPct
  have hnum : (0 : Rat) <
      (((validVals xs).filter (fun w => w < v)).length : Rat) +
        ((((validVals xs).filter (fun w => w = v)).length : Rat) + 1) / 2 := by
    positivity
  have hden : (0 : Rat) < ((validVals xs).length : Rat) := by
    exact_mod_cast h1
  exact mul_pos (div_pos hnum hden) (by norm_num)

/-- C7: `calculate_percentiles` assigns each row the percentile
`rank / count * 100` with averaged tie ranks — over the whole dataset for
overall place, within the `Gender` group for gender place, within the
`Gender × Age Group` group for age-group place; a group with a single
member yields 100, a missing place yields a missing percentile, and a
defined percentile is never zero. -/
theorem percentile_spec :
    ∀ (df : List CleanRec) (r : CleanRec), r ∈ df →
      (addPercentiles df r ∈ calculate_percentiles df) ∧
      ((addPercentiles df r).base = r) ∧
      (r.overallPlace = none → (addPercentiles df r).overallPct = none) ∧
      (r.genderPlace = none → (addPercentiles df r).genderPct = none) ∧
      (r.ageGroupPlace = none → (addPercentiles df r).ageGroupPct = none) ∧
      (∀ v, r.overallPlace = some v →
        (addPercentiles df r).overallPct =
          some (rankPct (df.map (fun x => x.overallPlace)) v) ∧
        0 < rankPct (df.map (fun x => x.overallPlace)) v) ∧
      (∀ g v, r.gender = some g → r.genderPlace = some v →
        (addPercentiles df r).genderPct =
          some (rankPct ((genderGroup df g).map (fun x => x.genderPlace)) v) ∧
        0 < rankPct ((genderGroup df g).map (fun x => x.genderPlace)) v) ∧
      (∀ g a v, r.gender = some g → r.ageGroup = some a → r.ageGroupPlace = some v →
        (addPercentiles df r).ageGroupPct =
          some (rankPct ((genderAgeGroup df g a).map (fun x => x.ageGroupPlace)) v)) ∧
      (∀ g v, r.gender = some g → r.genderPlace = some v →
        genderGroup df g = [r] → (addPercentiles df r).genderPct = some 100) ∧
      (∀ r2, r2 ∈ df → r2.gender = r.gender → r2.genderPlace = r.genderPlace →
        (addPercentiles df r2).genderPct = (addPercentiles df r).genderPct) ∧
      (df = [r] → ∀ v, r.overallPlace = some v →
        (addPercentiles df r).overallPct = some 100) := by
  intro df r hr
  refine ⟨List.mem_map.mpr ⟨r, hr, rfl⟩, rfl, ?_, ?_, ?_, ?_, ?_, ?_, ?_, ?_, ?_⟩
  · intro h
    simp [addPercentiles, h]
  · intro h
    rcases hg : r.gender with _ | g <;> simp [addPercentiles, h, hg]
  · intro h
    rcases hg : r.gender with _ | g <;> rcases ha : r.ageGroup with _ | a <;>
      simp [addPercentiles, h, hg, ha]
  · intro v hv
    refine ⟨by simp [addPercentiles, hv], ?_⟩
    exact rankPct_pos (List.mem_map.mpr ⟨r, hr, hv⟩)
  · intro g v hg hv
    refine ⟨by simp [addPercentiles, hg, hv], ?_⟩
    refine rankPct_pos (List.mem_map.mpr ⟨r, ?_, hv⟩)
    exact List.mem_filter.mpr ⟨hr, by simp [hg]⟩
  · intro g a v hg ha hv
    simp [addPercentiles, hg, ha, hv]
  · intro g v hg hv hgroup
    have : (addPercentiles df r).genderPct =
        some (rankPct ((genderGroup df g).map (fun x => x.genderPlace)) v) := by
      simp [addPercentiles, hg, hv]
    rw [this, hgroup]
    simp only [List.map_cons, List.map_nil, hv]
    rw [rankPct_single]
  · intro r2 hr2 hgen hpl
    rcases hg : r.gender with _ | g <;> rw [hg] at hgen <;>
      simp [addPercentiles, hg, hgen, hpl]
  · intro hdf v hv
    subst hdf
    simp [addPercentiles, hv, rankPct_single]

/-- C7 witness: the single-member gender-group clause at a concrete
one-record dataset. -/
theorem percentile_spec_witness :
    (addPercentiles [soloRec] soloRec).genderPct = some 100 := by
  have h := percentile_spec [soloRec] soloRec (List.mem_singleton_self _)
  exact h.2.2.2.2.2.2.2.2.1 "F" 1 rfl rfl rfl

/-- A loop step at a page within the page bound whose rows never appear is
a crash: the wait of line 61 sits outside every `try`, so the timeout
exception escapes the loop with the accumulated rows unsaved. -/
theorem scrapeLoop_crash_step (env : Nat → PageEnv) (maxPages fuel page : Nat)
    (acc : List RawRec) (h1 : page ≤ maxPages) (h2 : (env page).rows = []) :
    scrapeLoop env maxPages (fuel + 1) page acc = RunEnd.crashed acc := by
  simp only [scrapeLoop]
  rw [if_neg (by omega), if_pos h2]

/-- If every page within the bound renders at least one row, the loop can
only finish (via the page ceiling, a missing next control, or a staleness
timeout) — it never crashes. -/
theorem scrapeLoop_no_crash (env : Nat → PageEnv) (maxPages : Nat)
    (h : ∀ p, p ≤ maxPages → (env p).rows ≠ []) :
    ∀ fuel page acc, ∃ acc2,
      scrapeLoop env maxPages fuel page acc = RunEnd.finished acc2 := by
  intro fuel
  induction fuel with
  | zero =>
    intro page acc
    exact ⟨acc, rfl⟩
  | succ n ih =>
    intro page acc
    by_cases hp : page > maxPages
    · refine ⟨acc, ?_⟩
      simp only [scrapeLoop]
      rw [if_pos hp]
    · have hrows := h page (by omega)
      simp only [scrapeLoop]
      rw [if_neg hp, if_neg hrows]
      by_cases hnext : (env page).nextFound
      · by_cases hstale : (env page).staleOk
        · obtain ⟨acc2, hacc2⟩ := ih (page + 1) (acc ++ extractPage (env page).rows)
          refine ⟨acc2, ?_⟩
          rw [if_pos hnext, if_pos hstale, hacc2]
        · refine ⟨acc ++ extractPage (env page).rows, ?_⟩
          rw [if_pos hnext, if_neg hstale]
      · refine ⟨acc ++ extractPage (env page).rows, ?_⟩
        rw [if_neg hnext]

/-- C4 counterexample: in `envCrash` the first page renders a row and
navigates normally, the second page's rows never appear; the claim says
this later-page timeout ends the run normally and persists the rows, but
the run crashes — nothing is persisted (and the driver is not released). -/
theorem pagination_timeout_cex :
    (envCrash 1).rows ≠ [] ∧ (envCrash 2).rows = [] ∧
    scrapeRun envCrash 787 = { driverQuit := false, savedRows := none } := by
  decide

/-- C4 (amended): the rows-presence timeout is fatal on every page, first
or later — the loop ends in a crash that skips the final persist; the
natural end-of-pages signal is instead the absence of the `[Next >>]`
control, which finishes the run normally with the accumulated rows. -/
theorem pagination_timeout_amended :
    (∀ (env : Nat → PageEnv) (maxPages fuel page : Nat) (acc : List RawRec),
      page ≤ maxPages → (env page).rows = [] →
      scrapeLoop env maxPages (fuel + 1) page acc = RunEnd.crashed acc) ∧
    (∀ (env : Nat → PageEnv) (maxPages : Nat), 1 ≤ maxPages → (env 1).rows = [] →
      scrapeRun env maxPages = { driverQuit := false, savedRows := none }) ∧
    (∀ (env : Nat → PageEnv) (maxPages fuel page : Nat) (acc : List RawRec),
      page ≤ maxPages → (env page).rows ≠ [] → (env page).nextFound = false →
      scrapeLoop env maxPages (fuel + 1) page acc =
        RunEnd.finished (acc ++ extractPage (env page).rows)) := by
  refine ⟨scrapeLoop_crash_step, ?_, ?_⟩
  · intro env maxPages h1 h2
    obtain ⟨k, rfl⟩ : ∃ k, maxPages = k + 1 := ⟨maxPages - 1, by omega⟩
    unfold scrapeRun
    rw [scrapeLoop_crash_step env (k + 1) k 1 [] (by omega) h2]
  · intro env maxPages fuel page acc h1 h2 h3
    simp only [scrapeLoop]
    rw [if_neg (by omega), if_neg h2, h3]
    simp

/-- C4 witness: the fatal-on-a-later-page clause at page 2 of `envCrash`. -/
theorem pagination_timeout_amended_witness :
    scrapeLoop envCrash 787 (10 + 1) 2 [] = RunEnd.crashed [] :=
  pagination_timeout_amended.1 envCrash 787 10 2 [] (by decide) (by decide)

/-- C9 counterexample: in `envCrash` the run terminates (via the
uncaught rows-wait timeout at page 2), yet `driver.quit()` never runs —
the release is not unconditional. -/
theorem driver_release_cex :
    (envCrash 2).rows = [] ∧ (scrapeRun envCrash 787).driverQuit = false := by
  decide

/-- C9 (amended): the driver is released on every termination of the
scrape loop itself — page ceiling reached, `[Next >>]` absent, or
staleness timeout — which is exactly when the final persist also runs;
but a rows-wait timeout escapes the loop and skips the release together
with the final persist. -/
theorem driver_release_amended :
    (∀ (env : Nat → PageEnv) (maxPages : Nat),
      (∀ p, p ≤ maxPages → (env p).rows ≠ []) →
      (scrapeRun env maxPages).driverQuit = true ∧
      (scrapeRun env maxPages).savedRows ≠ none) ∧
    (∀ (env : Nat → PageEnv) (maxPages : Nat),
      (scrapeRun env maxPages).driverQuit = false →
      (scrapeRun env maxPages).savedRows = none) := by
  constructor
  · intro env maxPages h
    obtain ⟨acc2, hacc2⟩ := scrapeLoop_no_crash env maxPages h maxPages 1 []
    unfold scrapeRun
    rw [hacc2]
    simp
  · intro env maxPages h
    unfold scrapeRun at h ⊢
    revert h
    cases scrapeLoop env maxPages maxPages 1 [] with
    | crashed acc =>
      intro h
      rfl
    | finished acc =>
      intro h
      simp at h

/-- C9 witness: the guaranteed-release clause at `envGood`, whose run ends
normally when the next-page control is absent. -/
theorem driver_release_amended_witness :
    (scrapeRun envGood 3).driverQuit = true ∧
    (scrapeRun envGood 3).savedRows ≠ none :=
  driver_release_amended.1 envGood 3 (fun _ _ => List.cons_ne_nil _ _)

end CherryBlossom
